import Mathlib

/-!
Verification of the Inngest executor core (pkg/execution/executor/executor.go)
against its natural-language specification.  The Go code is shallowly embedded:
pure computations (idempotency-key selection, cancel-expression synthesis,
job-id construction) become Lean functions over `String`/`Nat`/`Int`; each
stateful handler becomes a function from its inputs and the responses of the
external collaborators (state store, queue, aggregator) to a result paired
with the ordered list of side effects it issues.  External collaborators
(expression evaluator, UUID library, queue, state store) are out of scope of
the extracted sources and enter as parameters or enumerated response types.
-/

namespace Inngest

/-! ## Scheduling: cancellation expressions and idempotency keys -/

/-- Embeds `generateCancelExpression` (executor.go): the cancellation pause
expression is the optional user expression ANDed with a timestamp clause built
from the ULID timestamp (milliseconds) of the event id passed in.  The Go code
formats `(async.ts == null || async.ts > %d)` with `eventID.Time()` and, when a
user expression exists, prepends `<expr> && `. -/
def generateCancelExpression (eventIDTimeMs : Nat) (expr : Option String) : String :=
  let res := "(async.ts == null || async.ts > " ++ toString eventIDTimeMs ++ ")"
  match expr with
  | some e => e ++ " && " ++ res
  | none => res

/-- Embeds the cancellation-pause expression produced inside `Schedule`
(executor.go, cancellation block).  `Schedule` mints `runID` and computes
`eventIDs`; the expression is generated from `eventIDs[0]` — the first
triggering event's internal ULID — and the result is passed through the
external `expressions.Interpolate` (parameter `interp`) before being persisted
on the pause.  The run id's timestamp is carried as a parameter solely so the
(non-)dependence on it can be stated. -/
def scheduleCancelPauseExpr (interp : String → String) (_runIDTimeMs eventIDTimeMs : Nat)
    (userExpr : Option String) : String :=
  interp (generateCancelExpression eventIDTimeMs userExpr)

/-- Modelled from the spec: the expression evaluator is an external
collaborator, so the evaluation of the synthesized clause
`async.ts == null || async.ts > T` against an incoming event is modelled
directly.  The event's `ts` field is `none` when null, otherwise an integer
millisecond timestamp; the clause passes when `ts` is null or strictly greater
than `T`. -/
def tsClausePasses (ts : Option Int) (t : Int) : Bool :=
  match ts with
  | none => true
  | some v => decide (t < v)

/-- Embeds the idempotency-key computation at the top of `Schedule`
(executor.go).  The Go code runs four independent `if` statements in order:
an explicit key is taken first; a present `OriginalRunID` then overwrites the
key with the fresh run id; an empty key is then filled from the single event's
internal id when exactly one event was given; a still-empty key is finally
filled from the batch id. -/
def scheduleIdempotencyKey (idempotencyKey : Option String) (originalRunID : Option String)
    (runID : String) (eventIDs : List String) (batchID : Option String) : String :=
  let key1 := match idempotencyKey with
    | some k => k
    | none => ""
  let key2 := if originalRunID.isSome then runID else key1
  let key3 := if key2 == "" && eventIDs.length == 1 then eventIDs.headD "" else key2
  let key4 := match batchID with
    | some b => if key3 == "" then b else key3
    | none => key3
  key4

end Inngest

namespace Inngest

/-- C1: the claim as stated is false — `Schedule` generates the cancellation
clause from the first event's internal-ULID timestamp, not from the run id's.
With run-id time 5 and event time 1, the persisted expression carries `> 1`
while the claim predicts `> 5`; moreover the event timestamp 3 ≤ 5 (the run-id
time) passes the persisted clause, contradicting the claimed consequence. -/
theorem schedule_cancel_expression_uses_event_time_not_run_time :
    scheduleCancelPauseExpr id 5 1 none = "(async.ts == null || async.ts > 1)"
    ∧ generateCancelExpression 5 none = "(async.ts == null || async.ts > 5)"
    ∧ scheduleCancelPauseExpr id 5 1 none ≠ generateCancelExpression 5 none
    ∧ tsClausePasses (some 3) 1 = true
    ∧ (3 : Int) ≤ 5 := by
  refine ⟨rfl, rfl, by decide, by decide, by decide⟩

/-- C1 (amended): the persisted cancellation pause expression is the user
expression ANDed with `async.ts == null || async.ts > T` where `T` is the
first triggering event's internal-ULID time in milliseconds (before external
interpolation); an event whose `ts` is at most `T` never passes the ts clause,
and an event with null `ts` always passes it. -/
theorem schedule_cancel_expression_spec (runT evtT : Nat) (userExpr : String) (ts : Int)
    (h : ts ≤ (evtT : Int)) :
    scheduleCancelPauseExpr id runT evtT (some userExpr)
      = userExpr ++ " && " ++ ("(async.ts == null || async.ts > " ++ toString evtT ++ ")")
    ∧ tsClausePasses (some ts) (evtT : Int) = false
    ∧ tsClausePasses none (evtT : Int) = true := by
  refine ⟨rfl, ?_, rfl⟩
  simp [tsClausePasses]
  omega

/-- C1 witness: the amended statement evaluated at run time 5, event time 2,
user expression `a == 1`, event ts 2. -/
theorem schedule_cancel_expression_spec_witness :
    scheduleCancelPauseExpr id 5 2 (some "a == 1")
      = "a == 1" ++ " && " ++ ("(async.ts == null || async.ts > " ++ toString 2 ++ ")")
    ∧ tsClausePasses (some 2) ((2 : Nat) : Int) = false
    ∧ tsClausePasses none ((2 : Nat) : Int) = true :=
  schedule_cancel_expression_spec 5 2 "a == 1" 2 (by decide)

/-- C2: the claim as stated is false — an explicitly supplied idempotency key
does not win over everything: when `OriginalRunID` is present the later `if`
overwrites the explicit key with the fresh run id. -/
theorem schedule_idempotency_key_original_run_overrides_explicit :
    scheduleIdempotencyKey (some "explicit") (some "orig") "run" ["evt"] none = "run"
    ∧ "run" ≠ "explicit" := by
  exact ⟨rfl, by decide⟩

/-- C2 (amended): the idempotency key precedence is: the fresh run id whenever
`original_run_id` is present (even over an explicit key); otherwise a
non-empty explicit `idempotency_key`; otherwise the single event's internal id
when exactly one event was given; otherwise the batch id. -/
theorem schedule_idempotency_key_spec (ik : Option String) (orig : Option String)
    (runID : String) (eventIDs : List String) (batchID : Option String)
    (hrun : runID ≠ "") :
    (orig.isSome → scheduleIdempotencyKey ik orig runID eventIDs batchID = runID)
    ∧ (∀ k, orig = none → ik = some k → k ≠ "" →
        scheduleIdempotencyKey ik orig runID eventIDs batchID = k)
    ∧ (∀ e, orig = none → (ik = none ∨ ik = some "") → eventIDs = [e] → e ≠ "" →
        scheduleIdempotencyKey ik orig runID eventIDs batchID = e)
    ∧ (∀ b, orig = none → (ik = none ∨ ik = some "") → eventIDs.length ≠ 1 →
        batchID = some b → scheduleIdempotencyKey ik orig runID eventIDs batchID = b) := by
  refine ⟨?_, ?_, ?_, ?_⟩
  · intro h
    simp [scheduleIdempotencyKey, h, hrun]
    cases batchID <;> simp [hrun]
  · intro k horig hik hk
    subst horig hik
    simp [scheduleIdempotencyKey, hk]
    cases batchID <;> simp [hk]
  · intro e horig hik hevt he
    subst horig hevt
    rcases hik with h | h <;> subst h <;>
      cases batchID <;> simp [scheduleIdempotencyKey, he]
  · intro b horig hik hlen hb
    subst horig hb
    rcases hik with h | h <;> subst h <;>
      simp [scheduleIdempotencyKey, hlen]

/-- C2 witness: each precedence clause of the amended statement exercised at a
concrete input. -/
theorem schedule_idempotency_key_spec_witness :
    scheduleIdempotencyKey (some "k") (some "o") "r" ["e"] none = "r"
    ∧ scheduleIdempotencyKey (some "k") none "r" ["e"] none = "k"
    ∧ scheduleIdempotencyKey none none "r" ["e"] none = "e"
    ∧ scheduleIdempotencyKey none none "r" [] (some "b") = "b" :=
  ⟨(schedule_idempotency_key_spec (some "k") (some "o") "r" ["e"] none (by decide)).1
     (by decide),
   (schedule_idempotency_key_spec (some "k") none "r" ["e"] none (by decide)).2.1 "k" rfl rfl
     (by decide),
   (schedule_idempotency_key_spec none none "r" ["e"] none (by decide)).2.2.1 "e" rfl
     (Or.inl rfl) rfl (by decide),
   (schedule_idempotency_key_spec none none "r" [] (some "b") (by decide)).2.2.2 "b" rfl
     (Or.inl rfl) (by decide) rfl⟩

end Inngest

namespace Inngest

/-! ## Step Executor (`Execute`) -/

/-- A function step as used by `Execute`: the trigger edge is rewritten to the
sole user step (`f.Steps[0]`). -/
structure Step where
  id : String
  retryCount : Nat
deriving DecidableEq

/-- An `inngest.Edge` as carried by a queue item payload: outgoing/incoming
step names plus the optional `IncomingGeneratorStep` (empty string when
absent, as in Go). -/
structure Edge where
  outgoing : String
  incoming : String
  incomingGeneratorStep : String
deriving DecidableEq

/-- The `inngest.TriggerName` constant naming the synthetic trigger edge. -/
def TriggerName : String := "$trigger"

/-- Outcome of the run validator created in `Execute`: an error, a
stop-without-retry (swallowed as nil/nil), or success. -/
inductive ValidationOutcome
  | failed
  | stopWithoutRetry
  | ok
deriving DecidableEq

/-- The slice of run state `Execute` reads when deciding whether to
short-circuit: `s.ActionID(stepID)` returns the stored output for a step, or
none when the step has not completed. -/
structure RunState where
  actionID : String → Option String

/-- Result of the embedded `Execute`:  `stored` is the short-circuit return of
a memoized step output (no driver invoked); `ran` is the driver's response. -/
inductive ExecOutcome
  | loadError
  | validationError
  | swallowed
  | dagError
  | stored (output : String)
  | ran (resp : Option String)
deriving DecidableEq

/-- Embeds the trigger-edge rewrite in `Execute`: when the incoming edge is the
synthetic trigger, functions with more than one step are rejected
(DAG-based steps are no longer supported) and otherwise the edge is redirected
to the sole user step.  Go indexes `f.Steps[0]`; functions always carry at
least one step, and the model returns the head with a default for totality. -/
def resolveEdge (steps : List Step) (edge : Edge) : Option Edge :=
  if edge.incoming == TriggerName then
    if steps.length > 1 then none
    else some { edge with outgoing := TriggerName, incoming := (steps.headD ⟨"", 0⟩).id }
  else some edge

/-- Embeds the memoization key in `Execute`: `incoming := edge.Incoming`,
overridden by `edge.IncomingGeneratorStep` when that field is non-empty. -/
def incomingKey (e : Edge) : String :=
  if e.incomingGeneratorStep ≠ "" then e.incomingGeneratorStep else e.incoming

/-- Embeds the control flow of `Execute` (executor.go) from state load to the
driver call: load the state, validate the run, rewrite the trigger edge,
then short-circuit with the stored output when `s.ActionID(incoming)` is
non-nil and only otherwise invoke `e.run` (the runtime driver, a parameter). -/
def ExecuteModel (load : Option RunState) (validate : ValidationOutcome)
    (steps : List Step) (edge : Edge) (driver : String → Option String) : ExecOutcome :=
  match load with
  | none => .loadError
  | some s =>
    match validate with
    | .failed => .validationError
    | .stopWithoutRetry => .swallowed
    | .ok =>
      match resolveEdge steps edge with
      | none => .dagError
      | some edge2 =>
        match s.actionID (incomingKey edge2) with
        | some resp => .stored resp
        | none => .ran (driver (incomingKey edge2))

/-- C3: when the loaded run state already holds a stored result for the
incoming step id (keyed by `incoming_generator_step` when non-empty, else by
`incoming`), `Execute` returns that stored output without invoking any runtime
driver: the outcome is `stored out` uniformly in the driver parameter. -/
theorem execute_short_circuits_on_stored_output (s : RunState) (steps : List Step)
    (edge e2 : Edge) (out : String)
    (hres : resolveEdge steps edge = some e2)
    (hstored : s.actionID (incomingKey e2) = some out) :
    ∀ driver : String → Option String,
      ExecuteModel (some s) .ok steps edge driver = .stored out := by
  intro driver
  simp [ExecuteModel, hres, hstored]

/-- C3 witness: a run state storing output `"42"` for step `"a"` short-circuits
for every driver; evaluated here at a driver that would have returned `"99"`. -/
theorem execute_short_circuits_on_stored_output_witness :
    ExecuteModel (some ⟨fun st => if st = "a" then some "42" else none⟩) .ok
      [⟨"a", 3⟩] ⟨"x", "a", ""⟩ (fun _ => some "99") = .stored "42" :=
  execute_short_circuits_on_stored_output
    ⟨fun st => if st = "a" then some "42" else none⟩ [⟨"a", 3⟩]
    ⟨"x", "a", ""⟩ ⟨"x", "a", ""⟩ "42" (by decide) (by decide) (fun _ => some "99")

end Inngest

namespace Inngest

/-! ## Side-effect model for the stateful handlers

Each handler is embedded as a function from its inputs and the responses of
the state store / queue / event publisher to a result together with the
ordered list of side-effecting calls it makes. -/

/-- Result of `SavePause` as seen by the handlers. -/
inductive SaveResult
  | ok
  | alreadyExists
  | otherErr
deriving DecidableEq

/-- Result of `queue.Enqueue` as seen by the handlers. -/
inductive EnqueueResult
  | ok
  | itemExists
  | otherErr
deriving DecidableEq

/-- Result of `handleSendingEvent` (publishing the invocation event). -/
inductive SendResult
  | ok
  | otherErr
deriving DecidableEq

/-- Result of `LeasePause`. -/
inductive LeaseResult
  | ok
  | leased
  | notFound
  | otherErr
deriving DecidableEq

/-- Result of `ConsumePause`. -/
inductive ConsumeResult
  | ok
  | leased
  | notFound
  | otherErr
deriving DecidableEq

/-- A side-effecting call issued by a handler, in program order. -/
inductive Effect
  | savePause (pauseID : String)
  | enqueue (kind : String) (jobID : String)
  | sendEvent
  | leasePause (pauseID : String)
  | consumePause (pauseID : String) (withData : Bool)
  | deletePause (pauseID : String)
  | removeAggregatePause (pauseID : String)
  | cancelRun (runID : String)
  | resumePause (pauseID : String)
  | stateCancel (runID : String)
  | stateDelete (runID : String)
  | finishHandler (errMsg : String)
  | lifecycle (name : String)
  | saveResponse (stepID : String)
deriving DecidableEq

/-- Generic handler result: success (a Go nil return), an error, or the
`ErrHandledStepError` sentinel. -/
inductive HandlerResult
  | ok
  | errored
  | handledStepError
deriving DecidableEq

/-! ## Opcode pause handlers: WaitForEvent and InvokeFunction (C4) -/

/-- Embeds the pause id computed identically in `handleGeneratorWaitForEvent`
and `handleGeneratorInvokeFunction`:
`uuid.NewSHA1(uuid.NameSpaceOID, []byte(runID.String()+gen.ID))`, a UUIDv5 in
the OID namespace of the run id concatenated with the step id.  The external
library hash is the parameter `uuidv5oid`. -/
def opcodePauseID (uuidv5oid : String → String) (runID stepID : String) : String :=
  uuidv5oid (runID ++ stepID)

/-- Store/queue responses consumed by `handleGeneratorWaitForEvent`. -/
structure WaitBehavior where
  savePause : SaveResult
  enqueue : EnqueueResult
deriving DecidableEq

/-- Embeds `handleGeneratorWaitForEvent` (executor.go) from the `SavePause`
call onward (the earlier expression validation and state loads are reads):
save the pause under the deterministic id; `ErrPauseAlreadyExists` is success
and stops; then enqueue the pause-timeout item with job id
`<idempotencyKey>-<stepID>-wait`, swallowing `ErrQueueItemExists`; finally
notify `OnWaitForEvent`. -/
def handleGeneratorWaitForEvent (uuidv5oid : String → String) (b : WaitBehavior)
    (runID stepID idemKey : String) : HandlerResult × List Effect :=
  let pid := opcodePauseID uuidv5oid runID stepID
  match b.savePause with
  | .alreadyExists => (.ok, [.savePause pid])
  | .otherErr => (.errored, [.savePause pid])
  | .ok =>
    let jobID := idemKey ++ "-" ++ stepID ++ "-" ++ "wait"
    match b.enqueue with
    | .itemExists => (.ok, [.savePause pid, .enqueue "pause" jobID])
    | .otherErr => (.errored, [.savePause pid, .enqueue "pause" jobID])
    | .ok => (.ok, [.savePause pid, .enqueue "pause" jobID, .lifecycle "OnWaitForEvent"])

/-- Store/queue/publisher responses consumed by
`handleGeneratorInvokeFunction`. -/
structure InvokeBehavior where
  savePause : SaveResult
  enqueue : EnqueueResult
  send : SendResult
deriving DecidableEq

/-- Embeds `handleGeneratorInvokeFunction` (executor.go) from the `SavePause`
call onward: save the pause under the same deterministic id;
`ErrPauseAlreadyExists` is success and stops; enqueue the pause-timeout item
with job id `<idempotencyKey>-<stepID>-invoke` (on `ErrQueueItemExists` return
nil before publishing; other enqueue errors are dropped by the Go code, which
overwrites `err` with the publish result); publish the invocation event via
`handleSendingEvent`; finally notify `OnInvokeFunction`. -/
def handleGeneratorInvokeFunction (uuidv5oid : String → String) (b : InvokeBehavior)
    (runID stepID idemKey : String) : HandlerResult × List Effect :=
  let pid := opcodePauseID uuidv5oid runID stepID
  match b.savePause with
  | .alreadyExists => (.ok, [.savePause pid])
  | .otherErr => (.errored, [.savePause pid])
  | .ok =>
    let jobID := idemKey ++ "-" ++ stepID ++ "-" ++ "invoke"
    match b.enqueue with
    | .itemExists => (.ok, [.savePause pid, .enqueue "pause" jobID])
    | _ =>
      match b.send with
      | .otherErr => (.errored, [.savePause pid, .enqueue "pause" jobID, .sendEvent])
      | .ok => (.ok, [.savePause pid, .enqueue "pause" jobID, .sendEvent,
                      .lifecycle "OnInvokeFunction"])

/-- C4: both opcode pause handlers derive the pause id as the deterministic
UUIDv5 (OID namespace) of the run id concatenated with the step id — the same
id for the same `(run_id, step_id)` in either handler — and when the state
store reports that the pause already exists, each handler returns success with
no side effect beyond the `SavePause` attempt itself: no timeout enqueue, no
event publish, no lifecycle notification. -/
theorem opcode_pause_id_deterministic_and_resave_noop
    (u : String → String) (r s k : String) (qw qi : EnqueueResult) (sd : SendResult) :
    opcodePauseID u r s = u (r ++ s)
    ∧ handleGeneratorWaitForEvent u ⟨.alreadyExists, qw⟩ r s k
        = (.ok, [.savePause (opcodePauseID u r s)])
    ∧ handleGeneratorInvokeFunction u ⟨.alreadyExists, qi, sd⟩ r s k
        = (.ok, [.savePause (opcodePauseID u r s)]) :=
  ⟨rfl, rfl, rfl⟩

end Inngest

namespace Inngest

/-! ## Resume (C5) -/

/-- The fields of a `state.Pause` that `Resume` reads.  `idemKey` stands for
`pause.Identifier.IdempotencyKey()` and `opcodeInvoke` for
`pause.Opcode == OpcodeInvokeFunction`. -/
structure ResumePause where
  id : String
  idemKey : String
  dataKey : String
  onTimeout : Bool
  opcodeInvoke : Bool
deriving DecidableEq

/-- Store/queue responses consumed by `Resume`. -/
structure ResumeBehavior where
  lease : LeaseResult
  consume : ConsumeResult
  enqueue : EnqueueResult
deriving DecidableEq

/-- Embeds `Resume` (executor.go): lease the pause, treating `ErrPauseLeased`
and `ErrPauseNotFound` as success handled elsewhere (any other lease error is
ignored by the Go code, which does not check it); if the pause is an
`OnTimeout` pause and the request carries an event id, consume the pause with
nil data and stop (success also on `ErrPauseNotFound`); otherwise consume with
the request's resume data (any error is surfaced), enqueue the continuation
`edge` item with job id `<idempotencyKey>-<dataKey>` swallowing
`ErrQueueItemExists`, and fire `OnInvokeFunctionResumed` or
`OnWaitForEventResumed` according to the pause opcode. -/
def Resume (b : ResumeBehavior) (p : ResumePause) (hasEventID hasWith : Bool) :
    HandlerResult × List Effect :=
  match b.lease with
  | .leased => (.ok, [.leasePause p.id])
  | .notFound => (.ok, [.leasePause p.id])
  | _ =>
    if p.onTimeout && hasEventID then
      match b.consume with
      | .ok => (.ok, [.leasePause p.id, .consumePause p.id false])
      | .notFound => (.ok, [.leasePause p.id, .consumePause p.id false])
      | _ => (.errored, [.leasePause p.id, .consumePause p.id false])
    else
      match b.consume with
      | .ok =>
        let jobID := p.idemKey ++ "-" ++ p.dataKey
        let resumed := if p.opcodeInvoke then "OnInvokeFunctionResumed"
          else "OnWaitForEventResumed"
        match b.enqueue with
        | .otherErr =>
          (.errored, [.leasePause p.id, .consumePause p.id hasWith, .enqueue "edge" jobID])
        | _ =>
          (.ok, [.leasePause p.id, .consumePause p.id hasWith, .enqueue "edge" jobID,
                 .lifecycle resumed])
      | _ => (.errored, [.leasePause p.id, .consumePause p.id hasWith])

/-- C5: `Resume` first leases the pause and returns nil when the lease reports
pause-leased or pause-not-found, with no further effects; when `on_timeout` is
set and the request carries an event id it consumes the pause with nil data
and returns without enqueueing; otherwise it consumes with the request's data
and enqueues an `edge` item with job id `<idempotency_key>-<data_key>`,
treating a queue-item-exists conflict as success (the resumed lifecycle still
fires). -/
theorem resume_lease_timeout_and_enqueue (b : ResumeBehavior) (p : ResumePause)
    (hasEventID hasWith : Bool) :
    (b.lease = .leased ∨ b.lease = .notFound →
      Resume b p hasEventID hasWith = (.ok, [.leasePause p.id]))
    ∧ (b.lease = .ok → p.onTimeout = true → hasEventID = true →
        (b.consume = .ok ∨ b.consume = .notFound) →
        Resume b p hasEventID hasWith = (.ok, [.leasePause p.id, .consumePause p.id false]))
    ∧ (b.lease = .ok → (p.onTimeout && hasEventID) = false → b.consume = .ok →
        b.enqueue = .itemExists →
        Resume b p hasEventID hasWith
          = (.ok, [.leasePause p.id, .consumePause p.id hasWith,
                   .enqueue "edge" (p.idemKey ++ "-" ++ p.dataKey),
                   .lifecycle (if p.opcodeInvoke then "OnInvokeFunctionResumed"
                     else "OnWaitForEventResumed")])) := by
  refine ⟨?_, ?_, ?_⟩
  · rintro (h | h) <;> simp [Resume, h]
  · intro hl ht he hc
    rcases hc with h | h <;> simp [Resume, hl, ht, he, h]
  · intro hl ht hc hq
    simp [Resume, hl, ht, hc, hq]

/-- C5 witness: the three branches of the theorem evaluated at concrete
behaviors: a leased pause, a timeout pause receiving an event, and a normal
resume whose continuation enqueue hits an existing queue item. -/
theorem resume_lease_timeout_and_enqueue_witness :
    Resume ⟨.leased, .ok, .ok⟩ ⟨"p", "ik", "dk", false, false⟩ true true
      = (.ok, [.leasePause "p"])
    ∧ Resume ⟨.ok, .ok, .ok⟩ ⟨"p", "ik", "dk", true, false⟩ true true
      = (.ok, [.leasePause "p", .consumePause "p" false])
    ∧ Resume ⟨.ok, .ok, .itemExists⟩ ⟨"p", "ik", "dk", false, false⟩ true true
      = (.ok, [.leasePause "p", .consumePause "p" true, .enqueue "edge" ("ik" ++ "-" ++ "dk"),
               .lifecycle "OnWaitForEventResumed"]) :=
  ⟨(resume_lease_timeout_and_enqueue ⟨.leased, .ok, .ok⟩ ⟨"p", "ik", "dk", false, false⟩
      true true).1 (Or.inl rfl),
   (resume_lease_timeout_and_enqueue ⟨.ok, .ok, .ok⟩ ⟨"p", "ik", "dk", true, false⟩
      true true).2.1 rfl rfl rfl (Or.inl rfl),
   (resume_lease_timeout_and_enqueue ⟨.ok, .ok, .itemExists⟩ ⟨"p", "ik", "dk", false, false⟩
      true true).2.2 rfl rfl rfl rfl⟩

/-! ## StepError opcode (C6) -/

/-- Embeds `handleStepError` (executor.go).  Inputs: whether the opcode
carries a user error (`gen.Error != nil`), its `NoRetry` flag, the result of
`queue.ShouldRetry(nil, item.Attempt, item.GetMaxAttempts())` (the queue
package is an external collaborator), whether `gen.Output()` marshals, the
`SaveResponse` result, and the `Enqueue` result.  Retryable errors notify
`OnStepScheduled` and return the `ErrHandledStepError` sentinel; final errors
persist the wrapped error as the step output and enqueue an `edge_error` item
with job id `<idempotencyKey>-<stepID>-failure`, swallowing
`ErrQueueItemExists`. -/
def handleStepError (hasUserErr noRetry queueShouldRetry outputOk : Bool)
    (save : SaveResult) (enq : EnqueueResult) (idemKey stepID : String) :
    HandlerResult × List Effect :=
  if !hasUserErr then (.errored, [])
  else
    let retryable := !noRetry && queueShouldRetry
    if retryable then (.handledStepError, [.lifecycle "OnStepScheduled"])
    else if !outputOk then (.errored, [])
    else
      match save with
      | .ok =>
        let jobID := idemKey ++ "-" ++ stepID ++ "-failure"
        match enq with
        | .itemExists => (.ok, [.saveResponse stepID, .enqueue "edge_error" jobID])
        | .otherErr => (.errored, [.saveResponse stepID, .enqueue "edge_error" jobID])
        | .ok => (.ok, [.saveResponse stepID, .enqueue "edge_error" jobID,
                        .lifecycle "OnStepScheduled"])
      | _ => (.errored, [.saveResponse stepID])

/-- C6: for a StepError opcode carrying a user error, when neither
`error.no_retry` is set nor the attempt budget exhausted the handler returns
the `handled-step-error` sentinel (no state write, no enqueue); otherwise it
persists the error as the step's stored output and enqueues an `edge_error`
item with job id `<idempotency_key>-<step_id>-failure`, and a
queue-item-exists conflict is swallowed as success. -/
theorem step_error_retry_or_finalize (noRetry queueShouldRetry : Bool)
    (enq : EnqueueResult) (idemKey stepID : String) :
    (noRetry = false → queueShouldRetry = true →
      handleStepError true noRetry queueShouldRetry true .ok enq idemKey stepID
        = (.handledStepError, [.lifecycle "OnStepScheduled"]))
    ∧ (noRetry = true ∨ queueShouldRetry = false →
        (handleStepError true noRetry queueShouldRetry true .ok enq idemKey stepID).2.take 2
          = [.saveResponse stepID, .enqueue "edge_error" (idemKey ++ "-" ++ stepID ++ "-failure")]
        ∧ (enq = .itemExists →
            handleStepError true noRetry queueShouldRetry true .ok enq idemKey stepID
              = (.ok, [.saveResponse stepID,
                       .enqueue "edge_error" (idemKey ++ "-" ++ stepID ++ "-failure")]))) := by
  constructor
  · intro h1 h2
    simp [handleStepError, h1, h2]
  · intro h
    have hr : (!noRetry && queueShouldRetry) = false := by
      rcases h with h | h <;> simp [h]
    constructor
    · cases enq <;> simp [handleStepError, hr]
    · intro he
      subst he
      simp [handleStepError, hr]

/-- C6 witness: a retryable step error returns the sentinel; a no-retry step
error persists the output and swallows the existing-item conflict. -/
theorem step_error_retry_or_finalize_witness :
    handleStepError true false true true .ok .ok "ik" "st"
      = (.handledStepError, [.lifecycle "OnStepScheduled"])
    ∧ handleStepError true true false true .ok .itemExists "ik" "st"
      = (.ok, [.saveResponse "st", .enqueue "edge_error" ("ik" ++ "-" ++ "st" ++ "-failure")]) :=
  ⟨(step_error_retry_or_finalize false true .ok "ik" "st").1 rfl rfl,
   ((step_error_retry_or_finalize true false .itemExists "ik" "st").2 (Or.inl rfl)).2 rfl⟩

end Inngest

namespace Inngest

/-! ## Pause matching: naive and aggregate strategies (C7, C8, C10) -/

/-- The fields of a `state.Pause` read by the pause-matching handlers. -/
structure MatchPause where
  id : String
  runID : String
  groupID : String
  expiresMs : Int
  triggeringEventID : Option String
  cancel : Bool
  expression : Option String
  dataKey : String
deriving DecidableEq

/-- Outcome of compiling and evaluating a pause expression (naive path only;
the aggregate path receives pre-matched pauses).  A non-boolean value behaves
as `value false` via the Go type assertion `result, _ := val.(bool)`. -/
inductive ExprOutcome
  | compileErr
  | evalErr
  | value (b : Bool)
deriving DecidableEq

/-- Outcome of the nested `e.Cancel` call as classified by the matching
handlers: success, an already-ended error (`ErrFunctionCancelled`,
`ErrFunctionComplete`, `ErrFunctionFailed`, `ErrFunctionEnded`), an error
whose message contains "no status stored in metadata", or any other error. -/
inductive CancelOutcome
  | ok
  | alreadyEnded
  | noStatusErr
  | otherErr
deriving DecidableEq

/-- Outcome of the nested `e.Resume` call. -/
inductive ResumeOutcome
  | ok
  | otherErr
deriving DecidableEq

/-- Collaborator responses consumed while handling one matched pause:
`runExists`/`existsErr` model `e.sm.Exists` (the deletion branch fires only
when it reports false with a nil error), `expr` the expression evaluation,
and `cancelResult`/`consume`/`resume` the nested calls. -/
structure PauseBehavior where
  runExists : Bool
  existsErr : Bool
  expr : ExprOutcome
  cancelResult : CancelOutcome
  consume : ConsumeResult
  resume : ResumeOutcome
deriving DecidableEq

/-- Embeds the per-pause goroutine body of `handlePausesAllNaively`
(executor.go), returning the increment to the consumed counter `res[1]` and
the ordered side effects.  In order: an expired pause is deleted and skipped;
a pause whose triggering event id equals the incoming event id is skipped; a
cancellation pause whose run no longer exists is deleted and skipped; a
present expression must evaluate to boolean true; then a cancellation pause
runs `Cancel` (already-ended errors are swallowed without consuming, other
errors abort unless the message is the "no status stored in metadata" one)
followed by `ConsumePause` (nil, `ErrPauseLeased`, `ErrPauseNotFound` all
count as consumed), and a non-cancellation pause runs `Resume` (success counts
as consumed). -/
def naivePauseStep (nowMs : Int) (evtID : String) (b : PauseBehavior) (p : MatchPause) :
    Nat × List Effect :=
  if p.expiresMs < nowMs then (0, [.deletePause p.id])
  else if p.triggeringEventID == some evtID then (0, [])
  else if p.cancel && (!b.runExists && !b.existsErr) then (0, [.deletePause p.id])
  else
    let exprPass : Bool :=
      match p.expression with
      | none => true
      | some _ =>
        match b.expr with
        | .value true => true
        | _ => false
    if !exprPass then (0, [])
    else if p.cancel then
      match b.cancelResult with
      | .alreadyEnded => (0, [.cancelRun p.runID])
      | .otherErr => (0, [.cancelRun p.runID])
      | _ =>
        match b.consume with
        | .otherErr => (0, [.cancelRun p.runID, .consumePause p.id false])
        | _ => (1, [.cancelRun p.runID, .consumePause p.id false])
    else
      match b.resume with
      | .ok => (1, [.resumePause p.id])
      | .otherErr => (0, [.resumePause p.id])

/-- Embeds the per-pause goroutine body of `handleAggregatePauses`
(executor.go).  The aggregator already matched the expression, so there is no
evaluation step; terminal outcomes additionally remove the pause from the
aggregator (`RemovePause`), including the "no status stored in metadata"
cancel error, which this path swallows without consuming. -/
def aggregatePauseStep (nowMs : Int) (evtID : String) (b : PauseBehavior) (p : MatchPause) :
    Nat × List Effect :=
  if p.expiresMs < nowMs then (0, [.deletePause p.id, .removeAggregatePause p.id])
  else if p.triggeringEventID == some evtID then (0, [])
  else if p.cancel && (!b.runExists && !b.existsErr) then
    (0, [.deletePause p.id, .removeAggregatePause p.id])
  else if p.cancel then
    match b.cancelResult with
    | .alreadyEnded => (0, [.cancelRun p.runID, .removeAggregatePause p.id])
    | .noStatusErr => (0, [.cancelRun p.runID, .removeAggregatePause p.id])
    | .otherErr => (0, [.cancelRun p.runID])
    | .ok =>
      match b.consume with
      | .otherErr => (0, [.cancelRun p.runID, .consumePause p.id false])
      | _ => (1, [.cancelRun p.runID, .consumePause p.id false, .removeAggregatePause p.id])
  else
    match b.resume with
    | .ok => (1, [.resumePause p.id, .removeAggregatePause p.id])
    | .otherErr => (0, [.resumePause p.id])

/-- Embeds the counter bookkeeping of `handlePausesAllNaively`: every iterated
pause (a nil pause included) increments the attempted counter `res[0]` at the
top of its goroutine; the body then contributes its consumed increment.
Returns `(attempted, consumed)`. -/
def handlePausesAllNaively (nowMs : Int) (evtID : String)
    (pauses : List (Option (MatchPause × PauseBehavior))) : Nat × Nat :=
  pauses.foldl (fun acc op =>
    match op with
    | none => (acc.1 + 1, acc.2)
    | some (p, b) => (acc.1 + 1, acc.2 + (naivePauseStep nowMs evtID b p).1)) (0, 0)

/-- Embeds the counter bookkeeping of `handleAggregatePauses`: when
`EvaluateAsyncEvent` fails the function returns `(count, 0)`; otherwise each
evaluation that is a `*state.Pause` increments attempted and contributes its
consumed increment, and other evaluations are skipped. -/
def handleAggregatePauses (nowMs : Int) (evtID : String) (aggErrCount : Option Nat)
    (evals : List (Option (MatchPause × PauseBehavior))) : Nat × Nat :=
  match aggErrCount with
  | some c => (c, 0)
  | none =>
    evals.foldl (fun acc op =>
      match op with
      | none => acc
      | some (p, b) => (acc.1 + 1, acc.2 + (aggregatePauseStep nowMs evtID b p).1)) (0, 0)

end Inngest

namespace Inngest

/-- C7: a pause whose expiry timestamp is before the current time is deleted
via `DeletePause` by both matching strategies (the aggregate strategy also
removes it from the aggregator) and neither `ConsumePause`, `Cancel`, nor
`Resume` is invoked for it, and it contributes nothing to the consumed
counter. -/
theorem expired_pause_deleted_not_consumed (nowMs : Int) (evtID : String)
    (b : PauseBehavior) (p : MatchPause) (h : p.expiresMs < nowMs) :
    naivePauseStep nowMs evtID b p = (0, [.deletePause p.id])
    ∧ aggregatePauseStep nowMs evtID b p
        = (0, [.deletePause p.id, .removeAggregatePause p.id]) := by
  constructor <;> simp [naivePauseStep, aggregatePauseStep, h]

/-- C7 witness: a pause expired one millisecond before now. -/
theorem expired_pause_deleted_not_consumed_witness :
    naivePauseStep 1 "evt" ⟨true, false, .value true, .ok, .ok, .ok⟩
      ⟨"pid", "rid", "g", 0, none, false, none, "dk"⟩ = (0, [.deletePause "pid"])
    ∧ aggregatePauseStep 1 "evt" ⟨true, false, .value true, .ok, .ok, .ok⟩
      ⟨"pid", "rid", "g", 0, none, false, none, "dk"⟩
        = (0, [.deletePause "pid", .removeAggregatePause "pid"]) :=
  expired_pause_deleted_not_consumed 1 "evt" ⟨true, false, .value true, .ok, .ok, .ok⟩
    ⟨"pid", "rid", "g", 0, none, false, none, "dk"⟩ (by decide)

/-- C8: the claim as stated is false — the expiry check precedes the
self-trigger guard, so a pause whose `triggering_event_id` equals the incoming
event id but which has already expired is deleted by `DeletePause` rather than
skipped and left in place. -/
theorem self_triggered_expired_pause_is_deleted :
    (⟨"pid", "rid", "g", 0, some "evt", true, none, "dk"⟩ : MatchPause).triggeringEventID
      = some "evt"
    ∧ naivePauseStep 1 "evt" ⟨true, false, .value true, .ok, .ok, .ok⟩
        ⟨"pid", "rid", "g", 0, some "evt", true, none, "dk"⟩ = (0, [.deletePause "pid"])
    ∧ (0, [Effect.deletePause "pid"]) ≠ ((0 : Nat), ([] : List Effect)) := by
  refine ⟨rfl, by decide, by decide⟩

/-- C8 (amended): a pause whose `triggering_event_id` equals the incoming
event's internal id is never cancelled, consumed, or resumed for that event by
either strategy: when it has not expired it is skipped with no side effect at
all, and when it has expired it is only deleted (the aggregate path also
removing it from the aggregator). -/
theorem self_triggered_pause_never_matched (nowMs : Int) (evtID : String)
    (b : PauseBehavior) (p : MatchPause) (htrig : p.triggeringEventID = some evtID) :
    (¬ p.expiresMs < nowMs →
      naivePauseStep nowMs evtID b p = (0, [])
      ∧ aggregatePauseStep nowMs evtID b p = (0, []))
    ∧ (p.expiresMs < nowMs →
      naivePauseStep nowMs evtID b p = (0, [.deletePause p.id])
      ∧ aggregatePauseStep nowMs evtID b p
          = (0, [.deletePause p.id, .removeAggregatePause p.id])) := by
  constructor
  · intro h
    constructor <;> simp [naivePauseStep, aggregatePauseStep, h, htrig]
  · intro h
    constructor <;> simp [naivePauseStep, aggregatePauseStep, h]

/-- C8 witness: an unexpired self-triggered cancellation pause is left alone by
both strategies. -/
theorem self_triggered_pause_never_matched_witness :
    naivePauseStep 1 "evt" ⟨true, false, .value true, .ok, .ok, .ok⟩
      ⟨"pid", "rid", "g", 5, some "evt", true, none, "dk"⟩ = (0, [])
    ∧ aggregatePauseStep 1 "evt" ⟨true, false, .value true, .ok, .ok, .ok⟩
      ⟨"pid", "rid", "g", 5, some "evt", true, none, "dk"⟩ = (0, []) :=
  (self_triggered_pause_never_matched 1 "evt" ⟨true, false, .value true, .ok, .ok, .ok⟩
    ⟨"pid", "rid", "g", 5, some "evt", true, none, "dk"⟩ rfl).1 (by decide)

/-! ## Cancel (C9) -/

/-- Run status as stored in the run metadata. -/
inductive RunStatus
  | scheduled
  | running
  | completed
  | failed
  | cancelled
  | overflowed
deriving DecidableEq

/-- Result of the embedded `Cancel`. -/
inductive CancelRunResult
  | ok
  | loadErr
  | functionEnded
  | stateCancelErr
deriving DecidableEq

/-- Collaborator responses consumed by `Cancel`: the loaded run status (none
when the state load fails) and whether `sm.Cancel` succeeds. -/
structure CancelBehavior where
  load : Option RunStatus
  stateCancelOk : Bool
deriving DecidableEq

/-- Embeds `Cancel` (executor.go): load the run state; failed, completed and
overflowed runs return `ErrFunctionEnded` untouched; an already-cancelled run
returns nil untouched; otherwise mark the run cancelled via `sm.Cancel`
(errors surface), delete the state (`sm.Delete`, error only logged), run the
finish handler with the synthetic `state.ErrFunctionCancelled` error (error
only logged) and fire `OnFunctionCancelled`. -/
def Cancel (b : CancelBehavior) (runID : String) : CancelRunResult × List Effect :=
  match b.load with
  | none => (.loadErr, [])
  | some st =>
    match st with
    | .failed => (.functionEnded, [])
    | .completed => (.functionEnded, [])
    | .overflowed => (.functionEnded, [])
    | .cancelled => (.ok, [])
    | .scheduled | .running =>
      if b.stateCancelOk then
        (.ok, [.stateCancel runID, .stateDelete runID, .finishHandler "function cancelled",
               .lifecycle "OnFunctionCancelled"])
      else (.stateCancelErr, [.stateCancel runID])

/-- C9: cancelling a failed, completed or overflowed run returns
`ErrFunctionEnded` with the state untouched; cancelling an already-cancelled
run returns nil with the state untouched (idempotent); otherwise the run is
marked cancelled, its state deleted, the finish handler runs with the
synthetic cancelled error, and `OnFunctionCancelled` fires. -/
theorem cancel_terminal_sticky_and_transition (b : CancelBehavior) (runID : String) :
    (b.load = some .failed ∨ b.load = some .completed ∨ b.load = some .overflowed →
      Cancel b runID = (.functionEnded, []))
    ∧ (b.load = some .cancelled → Cancel b runID = (.ok, []))
    ∧ (b.load = some .scheduled ∨ b.load = some .running → b.stateCancelOk = true →
        Cancel b runID = (.ok, [.stateCancel runID, .stateDelete runID,
          .finishHandler "function cancelled", .lifecycle "OnFunctionCancelled"])) := by
  refine ⟨?_, ?_, ?_⟩
  · rintro (h | h | h) <;> simp [Cancel, h]
  · intro h
    simp [Cancel, h]
  · rintro (h | h) hc <;> simp [Cancel, h, hc]

/-- C9 witness: a failed run, a cancelled run, and a running run cancelled
successfully. -/
theorem cancel_terminal_sticky_and_transition_witness :
    Cancel ⟨some .failed, true⟩ "r" = (.functionEnded, [])
    ∧ Cancel ⟨some .cancelled, true⟩ "r" = (.ok, [])
    ∧ Cancel ⟨some .running, true⟩ "r" = (.ok, [.stateCancel "r", .stateDelete "r",
        .finishHandler "function cancelled", .lifecycle "OnFunctionCancelled"]) :=
  ⟨(cancel_terminal_sticky_and_transition ⟨some .failed, true⟩ "r").1 (Or.inl rfl),
   (cancel_terminal_sticky_and_transition ⟨some .cancelled, true⟩ "r").2.1 rfl,
   (cancel_terminal_sticky_and_transition ⟨some .running, true⟩ "r").2.2 (Or.inr rfl) rfl⟩

end Inngest

namespace Inngest

/-- Each naive per-pause body increments the consumed counter at most once. -/
theorem naivePauseStep_consumed_le_one (nowMs : Int) (evtID : String)
    (b : PauseBehavior) (p : MatchPause) :
    (naivePauseStep nowMs evtID b p).1 ≤ 1 := by
  unfold naivePauseStep
  repeat' split
  all_goals simp

/-- Each aggregate per-pause body increments the consumed counter at most
once. -/
theorem aggregatePauseStep_consumed_le_one (nowMs : Int) (evtID : String)
    (b : PauseBehavior) (p : MatchPause) :
    (aggregatePauseStep nowMs evtID b p).1 ≤ 1 := by
  unfold aggregatePauseStep
  repeat' split
  all_goals simp

/-- Fold invariant for the naive strategy: starting from an accumulator with
consumed ≤ attempted, the invariant is preserved. -/
theorem naive_fold_consumed_le_attempted (nowMs : Int) (evtID : String)
    (ps : List (Option (MatchPause × PauseBehavior))) :
    ∀ a c : Nat, c ≤ a →
      (ps.foldl (fun acc op =>
        match op with
        | none => (acc.1 + 1, acc.2)
        | some (p, b) => (acc.1 + 1, acc.2 + (naivePauseStep nowMs evtID b p).1)) (a, c)).2
      ≤ (ps.foldl (fun acc op =>
        match op with
        | none => (acc.1 + 1, acc.2)
        | some (p, b) => (acc.1 + 1, acc.2 + (naivePauseStep nowMs evtID b p).1)) (a, c)).1 := by
  induction ps with
  | nil => intro a c h; simpa using h
  | cons hd tl ih =>
    intro a c h
    cases hd with
    | none => simpa using ih (a + 1) c (by omega)
    | some pb =>
      obtain ⟨p, b⟩ := pb
      have hb := naivePauseStep_consumed_le_one nowMs evtID b p
      simpa using ih (a + 1) (c + (naivePauseStep nowMs evtID b p).1) (by omega)

/-- Fold invariant for the aggregate strategy. -/
theorem aggregate_fold_consumed_le_attempted (nowMs : Int) (evtID : String)
    (ps : List (Option (MatchPause × PauseBehavior))) :
    ∀ a c : Nat, c ≤ a →
      (ps.foldl (fun acc op =>
        match op with
        | none => acc
        | some (p, b) => (acc.1 + 1, acc.2 + (aggregatePauseStep nowMs evtID b p).1)) (a, c)).2
      ≤ (ps.foldl (fun acc op =>
        match op with
        | none => acc
        | some (p, b) => (acc.1 + 1, acc.2 + (aggregatePauseStep nowMs evtID b p).1)) (a, c)).1
    := by
  induction ps with
  | nil => intro a c h; simpa using h
  | cons hd tl ih =>
    intro a c h
    cases hd with
    | none => simpa using ih a c h
    | some pb =>
      obtain ⟨p, b⟩ := pb
      have hb := aggregatePauseStep_consumed_le_one nowMs evtID b p
      simpa using ih (a + 1) (c + (aggregatePauseStep nowMs evtID b p).1) (by omega)

/-- C10: for every invocation of either pause-matching strategy, the returned
`HandlePauseResult` satisfies consumed ≤ attempted: each per-pause handler
increments attempted once before it can increment consumed at most once, in
both the naive and aggregate paths (and an aggregator failure reports zero
consumed). -/
theorem pause_result_consumed_le_attempted (nowMs : Int) (evtID : String)
    (ps : List (Option (MatchPause × PauseBehavior)))
    (aggErrCount : Option Nat) (evals : List (Option (MatchPause × PauseBehavior))) :
    (handlePausesAllNaively nowMs evtID ps).2 ≤ (handlePausesAllNaively nowMs evtID ps).1
    ∧ (handleAggregatePauses nowMs evtID aggErrCount evals).2
        ≤ (handleAggregatePauses nowMs evtID aggErrCount evals).1 := by
  constructor
  · exact naive_fold_consumed_le_attempted nowMs evtID ps 0 0 (le_refl 0)
  · cases aggErrCount with
    | some c => simp [handleAggregatePauses]
    | none => exact aggregate_fold_consumed_le_attempted nowMs evtID evals 0 0 (le_refl 0)

end Inngest
